import Mathlib

/-!
Verification of the PlotJuggler_MotorMonitor telemetry plugin.

This file is a shallow embedding of the later revision of
`datastream_sample.cpp` (the second half of `src/unnamed/part_001`) together
with `saveErrorLog.cpp` (`src/unnamed/part_002`).  C++ `double` fields are
modelled as rationals, machine side effects (log files, qDebug reports, UI
label updates) as explicit components of an ingestion state record, and the
UDP receive loop as a step function folded over a list of datagrams.
-/

namespace MotorMonitor

/-- Wire record for one motor, mirroring the C++ struct `InteractiveMotorData`
(13 `double` fields, `static_assert(sizeof == 8 * 13)`). -/
structure InteractiveMotorData where
  mode : ℚ
  index : ℚ
  tau_ : ℚ
  pos_ : ℚ
  vel_ : ℚ
  pos_des_ : ℚ
  vel_des_ : ℚ
  kp_ : ℚ
  kd_ : ℚ
  ff_ : ℚ
  error_ : ℚ
  temperature_ : ℚ
  mos_temperature_ : ℚ
  deriving Repr, DecidableEq

instance : Inhabited InteractiveMotorData :=
  ⟨⟨0, 0, 0, 0, 0, 0, 0, 0, 0, 0, 0, 0, 0⟩⟩

/-- `MOTOR_COUNT` constant of `receiveUDPData`. -/
def MOTOR_COUNT : ℕ := 13

/-- `sizeof(InteractiveMotorData)`: 13 doubles of 8 bytes each. -/
def sizeofMotorData : ℕ := 8 * 13

/-- `sizeof(recv_data)`: the exact number of bytes a datagram must carry. -/
def expectedBytes : ℕ := MOTOR_COUNT * sizeofMotorData

/-- `field_names` from `datastream_sample.h`: the variable names registered
with the plotting host, in declaration order. -/
def field_names : List String :=
  ["Mode", "Pos", "Vel", "Torque", "Pos_des", "Vel_des",
   "Kp", "Kd", "FF", "Error", "Temperatrue", "Mos Temperature"]

/-- `error_text_map` from `datastream_sample.h`: error code to text. -/
def error_text_map : List (ℤ × String) :=
  [(0, "无错误"),
   (1, "电机过热"),
   (2, "电机过流"),
   (3, "电机电压过低"),
   (4, "电机编码器错误"),
   (6, "电机刹车电压过高"),
   (7, "DRV驱动错误")]

/-- `DataStreamSample::errorToText`: map lookup with the
"未知错误" (unknown error) sentinel for unmapped codes. -/
def errorToText (e : ℤ) : String :=
  ((error_text_map.lookup e).getD "未知错误")

/-- `extract_fields` of the later source revision: only six fields are
returned (the others are commented out), in the order pos, vel, torque,
error, temperature, mos temperature. -/
def extract_fields (m : InteractiveMotorData) : List ℚ :=
  [m.pos_, m.vel_, m.tau_, m.error_, m.temperature_, m.mos_temperature_]

/-- C++ `static_cast<int>` on a rational value: truncation toward zero.
`Int.div` is T-division, matching C++ semantics since the denominator is
positive. -/
def cppTruncToInt (q : ℚ) : ℤ := q.num.tdiv q.den

/-- Error value read by `updateData`: `static_cast<int>(_data_array[i][3] + 0.5)`
(index 3 is the error column of the later revision's grid rows). -/
def errVal (row : List ℚ) : ℤ := cppTruncToInt (row.getD 3 0 + 1/2)

/-- One notification pushed to the status display: motor index, error code,
text and label color. -/
structure Emission where
  idx : ℕ
  code : ℤ
  text : String
  color : String
  deriving Repr, DecidableEq

/-- Per-motor body of the error-label loop in the later revision's
`updateData`: compare with the cached code, and only on change update
the cache and emit the text/color notification. -/
def processMotorError (i : ℕ) (row : List ℚ) (last : ℤ) : ℤ × Option Emission :=
  let ev : ℤ := errVal row
  if last ≠ ev then
    (ev, some ⟨i, ev, errorToText ev, if ev = 0 then "black" else "red"⟩)
  else
    (last, none)

/-- The error-label section of `updateData` over all `gc` motors
(`motor_error_labels_` holds one label per motor): returns the updated
`last_errors_` cache and the notifications emitted. -/
def updateErrors (gc : ℕ) (grid : List (List ℚ)) (last : List ℤ) :
    List ℤ × List Emission :=
  let results :=
    (List.range gc).map fun i => processMotorError i (grid.getD i []) (last.getD i (-1))
  (results.map Prod.fst, results.filterMap Prod.snd)

/-- One appended frame record in a log file: the frame label (timestamp
string written in the `===== Frame [...] =====` header) and the motor data
written below it. -/
abbrev LogEntry : Type := String × List InteractiveMotorData

/-- An append-only model of the log directory: a list of files, each a path
paired with the ordered list of frame records appended to it. -/
abbrev LogFS : Type := List (String × List LogEntry)

/-- Append one frame record to the file at `path`, creating the file if
absent (`std::ofstream` with `std::ios::app`). -/
def fsAppend (logs : LogFS) (path : String) (e : LogEntry) : LogFS :=
  match logs with
  | [] => [(path, [e])]
  | (p, es) :: rest =>
      if p = path then (p, es ++ [e]) :: rest else (p, es) :: fsAppend rest path e

/-- `printMotorDataToFile` from `saveErrorLog.cpp`, parameterized by which
paths can be opened (`w`).  On success it appends the first `size` motor
records under the `timestamp_str` header; on open failure it reports the
error (second component `true`) and drops the write. -/
def printMotorDataToFile (w : String → Bool) (logs : LogFS)
    (motor_data : List InteractiveMotorData) (size : ℕ)
    (filename timestamp_str : String) : LogFS × Bool :=
  if w filename then
    (fsAppend logs filename (timestamp_str, motor_data.take size), false)
  else
    (logs, true)

/-- Log directory created by the later revision's constructor. -/
def logDir : String := "/tmp/plotjuggler_motor_monitor_log/"

/-- Path of an error-triggered log file for a given first-trigger timestamp. -/
def errPath (ts : String) : String := logDir ++ "motor_error_log_" ++ ts ++ ".txt"

/-- Path of a continuous-mode log file for a given first-trigger timestamp. -/
def fullPath (ts : String) : String := logDir ++ "full_log_" ++ ts ++ ".txt"

/-- The mutable state of a `DataStreamSample` ingestion session, plus the
observable side effects (plotted points, emissions, diagnostics, log files)
accumulated so far. -/
structure IngestState where
  dataArray : List (List ℚ)
  lastErrors : List ℤ
  points : ℕ
  emissions : List Emission
  errorTriggered : Bool
  buffer : List (List InteractiveMotorData)
  tsFirst : String
  logs : LogFS
  warnings : ℕ
  invalidReports : ℕ
  logOpenErrors : ℕ
  deriving DecidableEq

/-- State after the constructor `DataStreamSample(gc, vc)`: a `gc × vc` grid
of zeros, the `last_errors_` cache filled with the `-1` sentinel, no side
effects yet. -/
def initState (gc vc : ℕ) : IngestState :=
  { dataArray := List.replicate gc (List.replicate vc 0)
    lastErrors := List.replicate gc (-1)
    points := 0
    emissions := []
    errorTriggered := false
    buffer := []
    tsFirst := ""
    logs := []
    warnings := 0
    invalidReports := 0
    logOpenErrors := 0 }

/-- `DataStreamSample::updateData` (later revision): pushes one point per
registered variable (`gc * min vc 12` of them) and runs the change-gated
error-label loop. -/
def updateData (gc vc : ℕ) (st : IngestState) : IngestState :=
  let res := updateErrors gc st.dataArray st.lastErrors
  { st with
    points := st.points + gc * min vc (field_names.length)
    lastErrors := res.1
    emissions := st.emissions ++ res.2 }

/-- `DataStreamSample::setData`: reject (diagnostic only) when the row count
differs from `_group_count` or the first row's length differs from
`_var_count`; otherwise replace the stored grid wholesale and run
`updateData`. -/
def setData (gc vc : ℕ) (grid : List (List ℚ)) (st : IngestState) : IngestState :=
  if grid.length ≠ gc ∨ (grid.headD []).length ≠ vc then
    { st with invalidReports := st.invalidReports + 1 }
  else
    updateData gc vc { st with dataArray := grid }

/-- The grid built in `receiveUDPData` from an accepted datagram: for each of
the `gc` motor slots, the extracted fields truncated to the first
`min vc (values.size())` entries. -/
def decodeGrid (gc vc : ℕ) (frames : List InteractiveMotorData) : List (List ℚ) :=
  (List.range gc).map fun i =>
    let values := extract_fields (frames.getD i default)
    values.take (min vc values.length)

/-- The thirteen structs sitting in `recv_data` after an accepted receive. -/
def recvArray (frames : List InteractiveMotorData) : List InteractiveMotorData :=
  (List.range MOTOR_COUNT).map fun i => frames.getD i default

/-- The `error_ != 0` scan over all `MOTOR_COUNT` motors. -/
def anyMotorError (frames : List InteractiveMotorData) : Bool :=
  (List.range MOTOR_COUNT).any fun i => (frames.getD i default).error_ ≠ 0

/-- One received datagram: the byte count returned by `recvfrom` and the
motor structs it carried. -/
structure Datagram where
  len : ℕ
  frames : List InteractiveMotorData
  deriving Repr, DecidableEq

/-- One iteration of the later revision's `receiveUDPData` loop body:
size check, decode + `setData`, the log-mode dependent buffering decision,
and the flush (export) step.  `mode` is `log_mode_`, `w` tells which log
paths can be opened, `ts` is the value `getCurrentTimestampString()` returns
during this iteration. -/
def stepIngest (gc vc : ℕ) (mode : ℕ) (w : String → Bool)
    (st : IngestState) (d : Datagram) (ts : String) : IngestState :=
  if d.len ≠ expectedBytes then
    { st with warnings := st.warnings + 1 }
  else
    let data := decodeGrid gc vc d.frames
    let st1 := setData gc vc data st
    let hasErr : Bool := if mode = 1 then false else anyMotorError d.frames
    let shouldLog : Bool := if mode = 1 then true else hasErr
    let st2 :=
      if shouldLog then { st1 with buffer := st1.buffer ++ [recvArray d.frames] }
      else st1
    if mode = 1 ∨ hasErr = true then
      let tsF := if st2.tsFirst = "" then ts else st2.tsFirst
      let fname := if mode = 1 then fullPath tsF else errPath tsF
      let res := st2.buffer.foldl
        (fun (acc : LogFS × ℕ) dat =>
          let r := printMotorDataToFile w acc.1 dat MOTOR_COUNT fname ts
          (r.1, acc.2 + (if r.2 then 1 else 0)))
        (st2.logs, st2.logOpenErrors)
      { st2 with
        logs := res.1
        logOpenErrors := res.2
        buffer := []
        tsFirst := tsF
        errorTriggered := if mode = 0 then false else st2.errorTriggered }
    else
      st2

/-- Run the receive loop from a given state over a list of
(datagram, timestamp) inputs. -/
def runFrom (gc vc : ℕ) (mode : ℕ) (w : String → Bool)
    (st : IngestState) (inputs : List (Datagram × String)) : IngestState :=
  inputs.foldl (fun s p => stepIngest gc vc mode w s p.1 p.2) st

/-- Run the receive loop from the freshly constructed state. -/
def runIngest (gc vc : ℕ) (mode : ℕ) (w : String → Bool)
    (inputs : List (Datagram × String)) : IngestState :=
  runFrom gc vc mode w (initState gc vc) inputs

/-- Every log path is openable (a writable log directory). -/
def wAll : String → Bool := fun _ => true

/-- A sequence of sampling updates: each tick the grid takes the next value
(as `setData` would store it) and `updateData` runs, exactly as the 50Hz
`loop()` thread observes successive grids. -/
def runUpdates (gc vc : ℕ) (grids : List (List (List ℚ))) (st : IngestState) : IngestState :=
  grids.foldl (fun s g => updateData gc vc { s with dataArray := g }) st

/-- A frame is a triggering frame: accepted size and some motor in error. -/
def triggersFrame (x : Datagram × String) : Bool :=
  x.1.len == expectedBytes && anyMotorError x.1.frames

/-- A frame of accepted size. -/
def acceptedD (x : Datagram × String) : Bool :=
  x.1.len == expectedBytes

/-- A motor record that is zero everywhere except position `p` (used to tell
frames apart) and error code `e`. -/
def mkMotor (p e : ℚ) : InteractiveMotorData :=
  ⟨0, 0, 0, p, 0, 0, 0, 0, 0, 0, e, 0, 0⟩

/-- A 13-motor frame whose first motor has position `p` and error `e`. -/
def scenFrame (p e : ℚ) : List InteractiveMotorData :=
  mkMotor p e :: List.replicate 12 (mkMotor 0 0)

/-- An accepted datagram carrying `scenFrame p e`. -/
def scenDatagram (p e : ℚ) : Datagram :=
  ⟨expectedBytes, scenFrame p e⟩

/-- Ten frames of which only frames 3 to 5 carry a nonzero error code. -/
def tenFrameInputs : List (Datagram × String) :=
  [(scenDatagram 1 0, "t01"), (scenDatagram 2 0, "t02"),
   (scenDatagram 3 1, "t03"), (scenDatagram 4 1, "t04"), (scenDatagram 5 1, "t05"),
   (scenDatagram 6 0, "t06"), (scenDatagram 7 0, "t07"), (scenDatagram 8 0, "t08"),
   (scenDatagram 9 0, "t09"), (scenDatagram 10 0, "t10")]

/-- Two separated error episodes: an error frame, an error-free frame, then a
second error frame. -/
def twoEpisodeInputs : List (Datagram × String) :=
  [(scenDatagram 1 1, "u1"), (scenDatagram 2 0, "u2"), (scenDatagram 3 1, "u3")]

/-- A Continuous-mode run: two accepted frames around one malformed
datagram. -/
def continuousInputs : List (Datagram × String) :=
  [(scenDatagram 1 0, "v1"), (⟨3, []⟩, "v2"), (scenDatagram 2 5, "v3")]

/-- A grid row whose error column (index 3) holds `e`. -/
def errRow (e : ℚ) : List ℚ :=
  [0, 0, 0, e, 0, 0, 0, 0, 0, 0, 0, 0]

/-- A full 13-row grid in which motor 1's error column holds `e` and every
other motor reads zero. -/
def scenGrid (e : ℚ) : List (List ℚ) :=
  errRow e :: List.replicate 12 (errRow 0)

/-- The grids seen over five sampling ticks while motor 1's decoded error
code runs through 0, 0, 2, 2, 0. -/
def fiveTickGrids : List (List (List ℚ)) :=
  [scenGrid 0, scenGrid 0, scenGrid 2, scenGrid 2, scenGrid 0]

/-- Number of change notifications a single motor produces along a sequence
of observed error codes, starting from cache value `c`: one per position
whose value differs from the previous one. -/
def countChanges : ℤ → List ℤ → ℕ
  | _, [] => 0
  | c, v :: tl => (if c ≠ v then 1 else 0) + countChanges v tl

/-- A grid with the right row count and a conforming first row but a short
second row: not of shape 13 × 12, yet it passes `setData`'s check. -/
def raggedGrid : List (List ℚ) :=
  List.replicate 12 0 :: List.replicate 11 0 :: List.replicate 11 (List.replicate 12 0)

section Lemmas

/-- A malformed datagram only bumps the warning diagnostic. -/
lemma step_malformed (gc vc mode : ℕ) (w : String → Bool) (st : IngestState)
    (d : Datagram) (ts : String) (h : d.len ≠ expectedBytes) :
    stepIngest gc vc mode w st d ts = { st with warnings := st.warnings + 1 } := by
  unfold stepIngest
  rw [if_pos h]

/-- The decoded grid always has `gc` rows. -/
lemma decodeGrid_length (gc vc : ℕ) (frames : List InteractiveMotorData) :
    (decodeGrid gc vc frames).length = gc := by
  simp [decodeGrid]

/-- Every decoded row is the extracted 6-field vector truncated to
`min vc 6` entries. -/
lemma decodeGrid_row_length (gc vc : ℕ) (frames : List InteractiveMotorData) :
    ∀ row ∈ decodeGrid gc vc frames, row.length = min vc 6 := by
  intro row hrow
  unfold decodeGrid at hrow
  obtain ⟨i, _, hi⟩ := List.mem_map.mp hrow
  subst hi
  simp [extract_fields, List.length_take]

/-- With the default configuration the first decoded row has 6 entries, so
`setData` rejects the decoded grid as an invalid size. -/
lemma setData_rejects_decoded (vc : ℕ) (frames : List InteractiveMotorData)
    (st : IngestState) (hvc : vc ≠ min vc 6) :
    setData 13 vc (decodeGrid 13 vc frames) st =
      { st with invalidReports := st.invalidReports + 1 } := by
  unfold setData
  rw [if_pos]
  right
  have hmem : (decodeGrid 13 vc frames).headD [] ∈ decodeGrid 13 vc frames := by
    unfold decodeGrid
    have h13 : List.range 13 = [0, 1, 2, 3, 4, 5, 6, 7, 8, 9, 10, 11, 12] := by decide
    rw [h13]
    simp
  have := decodeGrid_row_length 13 vc frames _ hmem
  omega

/-- `setData` touches only the grid, the plotted points, the error cache,
the emissions and the invalid-size diagnostic. -/
lemma setData_fields (gc vc : ℕ) (grid : List (List ℚ)) (st : IngestState) :
    (setData gc vc grid st).buffer = st.buffer ∧
    (setData gc vc grid st).logs = st.logs ∧
    (setData gc vc grid st).tsFirst = st.tsFirst ∧
    (setData gc vc grid st).errorTriggered = st.errorTriggered ∧
    (setData gc vc grid st).warnings = st.warnings ∧
    (setData gc vc grid st).logOpenErrors = st.logOpenErrors := by
  unfold setData updateData
  split <;> simp

/-- Unfolding one loop iteration of the receive loop. -/
lemma runFrom_cons (gc vc mode : ℕ) (w : String → Bool) (st : IngestState)
    (x : Datagram × String) (xs : List (Datagram × String)) :
    runFrom gc vc mode w st (x :: xs) =
      runFrom gc vc mode w (stepIngest gc vc mode w st x.1 x.2) xs := rfl

/-- The `recv_data` array holds exactly `MOTOR_COUNT` records, so taking
`MOTOR_COUNT` of them is the identity. -/
lemma recvArray_take (frames : List InteractiveMotorData) :
    List.take MOTOR_COUNT (recvArray frames) = recvArray frames := by
  have h : (recvArray frames).length = MOTOR_COUNT := by simp [recvArray]
  rw [← h, List.take_length]

/-- An accepted error-free datagram in ErrorTriggered mode only bumps the
invalid-size diagnostic (the decoded 6-wide rows are rejected by `setData`
and nothing is buffered or flushed). -/
lemma step0_accepted_noerr (w : String → Bool) (st : IngestState) (d : Datagram)
    (ts : String) (hlen : d.len = expectedBytes)
    (he : anyMotorError d.frames = false) :
    stepIngest 13 12 0 w st d ts = { st with invalidReports := st.invalidReports + 1 } := by
  have hreject := setData_rejects_decoded 12 d.frames st (by norm_num)
  simp [stepIngest, hlen, hreject, he]

/-- An accepted datagram carrying an error in ErrorTriggered mode (with a
writable log directory and an empty pending buffer) appends exactly that
frame to the episode's error-log path and resets the trigger flag. -/
lemma step0_accepted_err (st : IngestState) (d : Datagram) (ts : String)
    (hlen : d.len = expectedBytes) (he : anyMotorError d.frames = true)
    (hb : st.buffer = []) :
    stepIngest 13 12 0 wAll st d ts =
      { st with
        invalidReports := st.invalidReports + 1
        buffer := []
        tsFirst := if st.tsFirst = "" then ts else st.tsFirst
        logs := fsAppend st.logs
          (errPath (if st.tsFirst = "" then ts else st.tsFirst))
          (ts, recvArray d.frames)
        errorTriggered := false } := by
  have hreject := setData_rejects_decoded 12 d.frames st (by norm_num)
  simp [stepIngest, hlen, hreject, he, hb, wAll, printMotorDataToFile, recvArray_take]

/-- An accepted datagram in Continuous mode (writable log directory, empty
pending buffer) appends exactly that frame to the full-log path. -/
lemma step1_accepted (st : IngestState) (d : Datagram) (ts : String)
    (hlen : d.len = expectedBytes) (hb : st.buffer = []) :
    stepIngest 13 12 1 wAll st d ts =
      { st with
        invalidReports := st.invalidReports + 1
        buffer := []
        tsFirst := if st.tsFirst = "" then ts else st.tsFirst
        logs := fsAppend st.logs
          (fullPath (if st.tsFirst = "" then ts else st.tsFirst))
          (ts, recvArray d.frames) } := by
  have hreject := setData_rejects_decoded 12 d.frames st (by norm_num)
  simp [stepIngest, hlen, hreject, hb, wAll, printMotorDataToFile, recvArray_take]

/-- Counting fold: each processed frame adds one to the counter and leaves
the file system component alone. -/
lemma foldl_incr :
    ∀ (bufs : List (List InteractiveMotorData)) (logs : LogFS) (k : ℕ),
      bufs.foldl (fun (acc : LogFS × ℕ) _ => (acc.1, acc.2 + 1)) (logs, k) =
        (logs, k + bufs.length) := by
  intro bufs
  induction bufs with
  | nil => intro logs k; simp
  | cons b tl ih =>
    intro logs k
    simp only [List.foldl_cons, List.length_cons]
    rw [ih]
    simp
    omega

/-- Flushing any pending buffer with an unopenable log path leaves the log
files untouched and reports one open failure per buffered frame. -/
lemma foldl_print_unopenable (fname ts : String) :
    ∀ (bufs : List (List InteractiveMotorData)) (logs : LogFS) (k : ℕ),
      bufs.foldl
        (fun (acc : LogFS × ℕ) dat =>
          let r := printMotorDataToFile (fun _ => false) acc.1 dat MOTOR_COUNT fname ts
          (r.1, acc.2 + (if r.2 then 1 else 0)))
        (logs, k) = (logs, k + bufs.length) := by
  intro bufs logs k
  exact foldl_incr bufs logs k

/-- In ErrorTriggered runs the episode flag is reset by every flush and the
pending buffer is cleared by every flush, so both are empty between loop
iterations. -/
lemma runFrom0_inv (inputs : List (Datagram × String)) :
    ∀ st : IngestState, st.errorTriggered = false → st.buffer = [] →
      (runFrom 13 12 0 wAll st inputs).errorTriggered = false ∧
      (runFrom 13 12 0 wAll st inputs).buffer = [] := by
  induction inputs with
  | nil => intro st h1 h2; exact ⟨h1, h2⟩
  | cons x xs ih =>
    intro st h1 h2
    rw [runFrom_cons]
    by_cases hlen : x.1.len = expectedBytes
    · by_cases he : anyMotorError x.1.frames = true
      · rw [step0_accepted_err st x.1 x.2 hlen he h2]
        apply ih
        · rfl
        · rfl
      · have he' : anyMotorError x.1.frames = false := by simpa using he
        rw [step0_accepted_noerr wAll st x.1 x.2 hlen he']
        apply ih
        · exact h1
        · exact h2
    · rw [step_malformed 13 12 0 wAll st x.1 x.2 hlen]
      apply ih
      · exact h1
      · exact h2

/-- Appending to the single existing log file leaves the set of log paths
unchanged. -/
lemma fsAppend_map_fst_singleton (logs : LogFS) (p : String) (e : LogEntry)
    (h : logs.map Prod.fst = [p]) : (fsAppend logs p e).map Prod.fst = [p] := by
  cases logs with
  | nil => simp at h
  | cons hd tl =>
    simp only [List.map_cons] at h
    have h1 : hd.1 = p := (List.cons_eq_cons.mp h).1
    have h2 : tl = [] := by
      have := (List.cons_eq_cons.mp h).2
      simpa using this
    subst h2
    obtain ⟨q, es⟩ := hd
    simp only at h1
    subst h1
    simp [fsAppend]

/-- Once the first flush has happened in an ErrorTriggered run, every later
flush appends to the very same path `errPath t` and `timestamp_str_first`
never changes again. -/
lemma runFrom0_after_first (inputs : List (Datagram × String)) :
    ∀ (st : IngestState) (t : String),
      st.buffer = [] → st.tsFirst = t → t ≠ "" →
      st.logs.map Prod.fst = [errPath t] →
      (runFrom 13 12 0 wAll st inputs).tsFirst = t ∧
      (runFrom 13 12 0 wAll st inputs).logs.map Prod.fst = [errPath t] := by
  induction inputs with
  | nil => intro st t hb htf ht hl; exact ⟨htf, hl⟩
  | cons x xs ih =>
    intro st t hb htf ht hl
    rw [runFrom_cons]
    by_cases hlen : x.1.len = expectedBytes
    · by_cases he : anyMotorError x.1.frames = true
      · rw [step0_accepted_err st x.1 x.2 hlen he hb]
        apply ih
        · rfl
        · show (if st.tsFirst = "" then x.2 else st.tsFirst) = t
          rw [htf, if_neg ht]
        · exact ht
        · show (fsAppend st.logs
            (errPath (if st.tsFirst = "" then x.2 else st.tsFirst)) _).map Prod.fst = [errPath t]
          rw [htf, if_neg ht]
          exact fsAppend_map_fst_singleton st.logs (errPath t) _ hl
      · have he' : anyMotorError x.1.frames = false := by simpa using he
        rw [step0_accepted_noerr wAll st x.1 x.2 hlen he']
        exact ih _ t hb htf ht hl
    · rw [step_malformed 13 12 0 wAll st x.1 x.2 hlen]
      exact ih _ t hb htf ht hl

/-- Running the ErrorTriggered loop from the pristine start state: if no
frame ever triggers, nothing is written and `timestamp_str_first` stays
empty; otherwise the run's every log file lives at the single path named by
the FIRST triggering frame's timestamp. -/
lemma runFrom0_from_start (inputs : List (Datagram × String)) :
    ∀ st : IngestState,
      st.buffer = [] → st.tsFirst = "" → st.logs = [] →
      (∀ x ∈ inputs, x.2 ≠ "") →
      ((inputs.filter triggersFrame = [] →
          (runFrom 13 12 0 wAll st inputs).tsFirst = "" ∧
          (runFrom 13 12 0 wAll st inputs).logs = []) ∧
       (∀ x0 rest, inputs.filter triggersFrame = x0 :: rest →
          (runFrom 13 12 0 wAll st inputs).tsFirst = x0.2 ∧
          (runFrom 13 12 0 wAll st inputs).logs.map Prod.fst = [errPath x0.2])) := by
  induction inputs with
  | nil =>
    intro st hb htf hl _
    refine ⟨fun _ => ⟨htf, hl⟩, fun x0 rest h => ?_⟩
    simp at h
  | cons x xs ih =>
    intro st hb htf hl hts
    rw [runFrom_cons]
    by_cases htr : triggersFrame x = true
    · obtain ⟨hlen, he⟩ : x.1.len = expectedBytes ∧ anyMotorError x.1.frames = true := by
        simpa [triggersFrame] using htr
      rw [step0_accepted_err st x.1 x.2 hlen he hb]
      have hx2 : x.2 ≠ "" := hts x (List.mem_cons_self x xs)
      have hrest := runFrom0_after_first xs
        { st with
          invalidReports := st.invalidReports + 1
          buffer := []
          tsFirst := if st.tsFirst = "" then x.2 else st.tsFirst
          logs := fsAppend st.logs
            (errPath (if st.tsFirst = "" then x.2 else st.tsFirst))
            (x.2, recvArray x.1.frames)
          errorTriggered := false }
        x.2 rfl (by simp [htf]) hx2 (by simp [htf, hl, fsAppend])
      constructor
      · intro habs
        rw [List.filter_cons_of_pos htr] at habs
        exact absurd habs (List.cons_ne_nil x _)
      · intro x0 rest heq
        rw [List.filter_cons_of_pos htr] at heq
        obtain ⟨hx0, -⟩ := List.cons_eq_cons.mp heq
        subst hx0
        exact hrest
    · have htrf : triggersFrame x = false := by simpa using htr
      have hts' : ∀ y ∈ xs, y.2 ≠ "" := fun y hy => hts y (List.mem_cons_of_mem x hy)
      rw [List.filter_cons_of_neg (by simp [htrf])]
      by_cases hlen : x.1.len = expectedBytes
      · have he' : anyMotorError x.1.frames = false := by
          simp [triggersFrame, hlen] at htrf
          exact htrf
        rw [step0_accepted_noerr wAll st x.1 x.2 hlen he']
        exact ih _ hb htf hl hts'
      · rw [step_malformed 13 12 0 wAll st x.1 x.2 hlen]
        exact ih _ hb htf hl hts'

/-- After the first flush of a Continuous run, every later accepted frame
appends one record, in receive order, to the same full-log file. -/
lemma runFrom1_after_first (inputs : List (Datagram × String)) :
    ∀ (st : IngestState) (t : String) (E : List LogEntry),
      st.buffer = [] → st.tsFirst = t → t ≠ "" →
      st.logs = [(fullPath t, E)] →
      (runFrom 13 12 1 wAll st inputs).logs =
        [(fullPath t,
          E ++ (inputs.filter acceptedD).map (fun x => (x.2, recvArray x.1.frames)))] ∧
      (runFrom 13 12 1 wAll st inputs).tsFirst = t ∧
      (runFrom 13 12 1 wAll st inputs).buffer = [] := by
  induction inputs with
  | nil =>
    intro st t E hb htf ht hl
    refine ⟨?_, htf, hb⟩
    show st.logs = _
    rw [hl]
    simp
  | cons x xs ih =>
    intro st t E hb htf ht hl
    rw [runFrom_cons]
    by_cases hlen : x.1.len = expectedBytes
    · rw [step1_accepted st x.1 x.2 hlen hb]
      have hnext := ih
        { st with
          invalidReports := st.invalidReports + 1
          buffer := []
          tsFirst := if st.tsFirst = "" then x.2 else st.tsFirst
          logs := fsAppend st.logs
            (fullPath (if st.tsFirst = "" then x.2 else st.tsFirst))
            (x.2, recvArray x.1.frames) }
        t (E ++ [(x.2, recvArray x.1.frames)]) rfl
        (by simp [htf, if_neg ht]) ht
        (by simp [htf, if_neg ht, hl, fsAppend])
      rw [List.filter_cons_of_pos (by simp [acceptedD, hlen])]
      refine ⟨?_, hnext.2.1, hnext.2.2⟩
      rw [hnext.1]
      simp
    · rw [step_malformed 13 12 1 wAll st x.1 x.2 hlen]
      rw [List.filter_cons_of_neg (by simp [acceptedD, hlen])]
      exact ih _ t E hb htf ht hl

/-- A Continuous run from the pristine start state writes every accepted
frame exactly once, in receive order, into the single full-log file named
by the first accepted frame's timestamp. -/
lemma runFrom1_from_start (inputs : List (Datagram × String)) :
    ∀ st : IngestState,
      st.buffer = [] → st.tsFirst = "" → st.logs = [] →
      (∀ x ∈ inputs, x.2 ≠ "") →
      ((inputs.filter acceptedD = [] → (runFrom 13 12 1 wAll st inputs).logs = []) ∧
       (∀ x0 rest, inputs.filter acceptedD = x0 :: rest →
          (runFrom 13 12 1 wAll st inputs).logs =
            [(fullPath x0.2,
              (inputs.filter acceptedD).map (fun x => (x.2, recvArray x.1.frames)))])) := by
  induction inputs with
  | nil =>
    intro st hb htf hl _
    refine ⟨fun _ => hl, fun x0 rest h => ?_⟩
    simp at h
  | cons x xs ih =>
    intro st hb htf hl hts
    rw [runFrom_cons]
    by_cases hlen : x.1.len = expectedBytes
    · rw [step1_accepted st x.1 x.2 hlen hb]
      have hx2 : x.2 ≠ "" := hts x (List.mem_cons_self x xs)
      have hrest := runFrom1_after_first xs
        { st with
          invalidReports := st.invalidReports + 1
          buffer := []
          tsFirst := if st.tsFirst = "" then x.2 else st.tsFirst
          logs := fsAppend st.logs
            (fullPath (if st.tsFirst = "" then x.2 else st.tsFirst))
            (x.2, recvArray x.1.frames) }
        x.2 [(x.2, recvArray x.1.frames)] rfl (by simp [htf]) hx2
        (by simp [htf, hl, fsAppend])
      rw [List.filter_cons_of_pos (by simp [acceptedD, hlen])]
      constructor
      · intro habs
        exact absurd habs (List.cons_ne_nil x _)
      · intro x0 rest heq
        obtain ⟨hx0, -⟩ := List.cons_eq_cons.mp heq
        subst hx0
        rw [hrest.1]
        simp
    · rw [step_malformed 13 12 1 wAll st x.1 x.2 hlen]
      rw [List.filter_cons_of_neg (by simp [acceptedD, hlen])]
      exact ih _ hb htf hl fun y hy => hts y (List.mem_cons_of_mem x hy)

/-- C++ `static_cast<int>(x + 0.5)` on an exact nonnegative integer value
x = z yields z. -/
lemma cppTrunc_intCast_add_half (z : ℤ) (hz : 0 ≤ z) :
    cppTruncToInt ((z : ℚ) + 1/2) = z := by
  have hq : (0 : ℚ) ≤ (z : ℚ) + 1/2 := by positivity
  have hnum : 0 ≤ ((z : ℚ) + 1/2).num := Rat.num_nonneg.mpr hq
  unfold cppTruncToInt
  rw [Int.tdiv_eq_ediv hnum (by positivity)]
  rw [← Rat.floor_def]
  rw [add_comm, Int.floor_add_int]
  norm_num

/-- The error value read from a row whose error column holds the integer
`z ≥ 0`. -/
lemma errVal_errRow_int (z : ℤ) (hz : 0 ≤ z) : errVal (errRow (z : ℚ)) = z := by
  unfold errVal
  have hg : (errRow (z : ℚ)).getD 3 0 = (z : ℚ) := rfl
  rw [hg]
  exact cppTrunc_intCast_add_half z hz

/-- Error column 0 decodes to error value 0. -/
lemma errVal_errRow_zero : errVal (errRow 0) = 0 := by
  have h := errVal_errRow_int 0 (by norm_num)
  simpa using h

/-- Error column 2 decodes to error value 2. -/
lemma errVal_errRow_two : errVal (errRow 2) = 2 := by
  have h := errVal_errRow_int 2 (by norm_num)
  simpa using h

/-- The updated cache entry of one motor is the freshly decoded error value
whether or not it changed. -/
lemma processMotorError_fst (i : ℕ) (row : List ℚ) (last : ℤ) :
    (processMotorError i row last).1 = errVal row := by
  simp only [processMotorError]
  by_cases h : last ≠ errVal row
  · rw [if_pos h]
  · rw [if_neg h]
    exact not_not.mp h

/-- One motor's branch emits exactly when the cached code differs from the
decoded one. -/
lemma processMotorError_snd (i : ℕ) (row : List ℚ) (last : ℤ) :
    (processMotorError i row last).2 =
      if last ≠ errVal row then
        some ⟨i, errVal row, errorToText (errVal row),
              if errVal row = 0 then "black" else "red"⟩
      else none := by
  simp only [processMotorError]
  by_cases h : last ≠ errVal row
  · rw [if_pos h, if_pos h]
  · rw [if_neg h, if_neg h]

/-- Selecting the emissions of motor `i` commutes with selecting index `i`
among the processed motor indices, since motor `j`'s branch only ever emits
a notification tagged `j`. -/
lemma filterMap_filter_idx (grid : List (List ℚ)) (last : List ℤ) (i : ℕ) :
    ∀ is : List ℕ,
      ((is.map fun j => processMotorError j (grid.getD j []) (last.getD j (-1))).filterMap
          Prod.snd).filter (fun em => em.idx == i) =
        (((is.filter fun j => j == i).map
            fun j => processMotorError j (grid.getD j []) (last.getD j (-1))).filterMap
          Prod.snd) := by
  intro is
  induction is with
  | nil => rfl
  | cons j tl ih =>
    have hsnd := processMotorError_snd j (grid.getD j []) (last.getD j (-1))
    rw [List.map_cons]
    by_cases hch : last.getD j (-1) ≠ errVal (grid.getD j [])
    · rw [if_pos hch] at hsnd
      rw [List.filterMap_cons_some hsnd]
      by_cases hji : j = i
      · subst hji
        rw [List.filter_cons_of_pos (by simp), List.filter_cons_of_pos (by simp)]
        rw [List.map_cons, List.filterMap_cons_some hsnd, ih]
      · rw [List.filter_cons_of_neg (by simp [hji]),
          List.filter_cons_of_neg (by simp [hji])]
        exact ih
    · rw [if_neg hch] at hsnd
      rw [List.filterMap_cons_none hsnd]
      by_cases hji : j = i
      · subst hji
        rw [List.filter_cons_of_pos (by simp)]
        rw [List.map_cons, List.filterMap_cons_none hsnd]
        exact ih
      · rw [List.filter_cons_of_neg (by simp [hji])]
        exact ih

/-- The index `i` occurs exactly once in `range gc` when `i < gc`. -/
lemma range_filter_beq (gc i : ℕ) (hi : i < gc) :
    (List.range gc).filter (fun j => j == i) = [i] := by
  induction gc with
  | zero => omega
  | succ n ih =>
    rw [List.range_succ, List.filter_append]
    by_cases h : i < n
    · rw [ih h]
      have hn : List.filter (fun j => j == i) [n] = [] := by
        simp
        omega
      rw [hn, List.append_nil]
    · have hin : i = n := by omega
      subst hin
      have h1 : (List.range i).filter (fun j => j == i) = [] := by
        apply List.filter_eq_nil_iff.mpr
        intro a ha
        simp only [List.mem_range] at ha
        simp
        omega
      rw [h1]
      simp

/-- The error-label loop emits exactly one notification for motor `i` when
its cached code differs from the decoded one, and none otherwise. -/
lemma updateErrors_filter (gc : ℕ) (grid : List (List ℚ)) (last : List ℤ)
    (i : ℕ) (hi : i < gc) :
    (updateErrors gc grid last).2.filter (fun em => em.idx == i) =
      (if last.getD i (-1) ≠ errVal (grid.getD i []) then
        [⟨i, errVal (grid.getD i []), errorToText (errVal (grid.getD i [])),
          if errVal (grid.getD i []) = 0 then "black" else "red"⟩]
      else []) := by
  show (((List.range gc).map fun j =>
      processMotorError j (grid.getD j []) (last.getD j (-1))).filterMap
        Prod.snd).filter (fun em => em.idx == i) = _
  rw [filterMap_filter_idx grid last i (List.range gc), range_filter_beq gc i hi]
  rw [List.map_cons, List.map_nil]
  have hsnd := processMotorError_snd i (grid.getD i []) (last.getD i (-1))
  by_cases h : last.getD i (-1) ≠ errVal (grid.getD i [])
  · rw [if_pos h] at hsnd
    rw [List.filterMap_cons_some hsnd, List.filterMap_nil, if_pos h]
  · rw [if_neg h] at hsnd
    rw [List.filterMap_cons_none hsnd, List.filterMap_nil, if_neg h]

/-- After the error-label loop, motor `i`'s cache holds the decoded error
value of the current grid. -/
lemma updateErrors_fst_getD (gc : ℕ) (grid : List (List ℚ)) (last : List ℤ)
    (i : ℕ) (dflt : ℤ) (hi : i < gc) :
    (updateErrors gc grid last).1.getD i dflt = errVal (grid.getD i []) := by
  show ((((List.range gc).map fun j =>
      processMotorError j (grid.getD j []) (last.getD j (-1))).map
        Prod.fst).getD i dflt) = _
  rw [List.getD_eq_getElem?_getD, List.getElem?_map, List.getElem?_map,
    List.getElem?_range hi]
  simp [processMotorError_fst]

/-- Across a sequence of sampling updates, motor 1's notification count is
the number of changes along its decoded error-code sequence, starting from
the cached value. -/
lemma runUpdates_motor0_count (grids : List (List (List ℚ))) :
    ∀ st : IngestState,
      ((runUpdates 13 12 grids st).emissions.filter (fun em => em.idx == 0)).length =
        (st.emissions.filter (fun em => em.idx == 0)).length +
          countChanges (st.lastErrors.getD 0 (-1))
            (grids.map fun g => errVal (g.getD 0 [])) := by
  induction grids with
  | nil => intro st; simp [runUpdates, countChanges]
  | cons g tl ih =>
    intro st
    have hstep : runUpdates 13 12 (g :: tl) st =
        runUpdates 13 12 tl (updateData 13 12 { st with dataArray := g }) := rfl
    rw [hstep, ih]
    have hem : (updateData 13 12 { st with dataArray := g }).emissions =
        st.emissions ++ (updateErrors 13 g st.lastErrors).2 := rfl
    have hle : (updateData 13 12 { st with dataArray := g }).lastErrors =
        (updateErrors 13 g st.lastErrors).1 := rfl
    rw [hem, hle, List.filter_append, List.length_append]
    rw [updateErrors_filter 13 g st.lastErrors 0 (by norm_num)]
    rw [updateErrors_fst_getD 13 g st.lastErrors 0 (-1) (by norm_num)]
    show _ = _ + countChanges _ (errVal (g.getD 0 []) :: _)
    rw [countChanges]
    by_cases h : st.lastErrors.getD 0 (-1) ≠ errVal (g.getD 0 [])
    · rw [if_pos h, if_pos h]
      simp
      omega
    · rw [if_neg h, if_neg h]
      simp

/-- The five-tick scenario (codes 0, 0, 2, 2, 0 for motor 1, cache seeded
with the −1 sentinel) produces exactly three notifications for motor 1. -/
lemma fiveTick_count :
    ((runUpdates 13 12 fiveTickGrids (initState 13 12)).emissions.filter
      (fun em => em.idx == 0)).length = 3 := by
  rw [runUpdates_motor0_count fiveTickGrids (initState 13 12)]
  have hmap : fiveTickGrids.map (fun g => errVal (g.getD 0 [])) =
      [0, 0, 2, 2, 0] := by
    simp [fiveTickGrids, scenGrid, errVal_errRow_zero, errVal_errRow_two]
  rw [hmap]
  have h1 : (initState 13 12).emissions = [] := rfl
  have h2 : (initState 13 12).lastErrors.getD 0 (-1) = -1 := by decide
  rw [h1, h2]
  decide

end Lemmas

section C1

/-- Claim C1: in ErrorTriggered mode an accepted frame is captured into the
episode's error-log file exactly when some motor's error code is nonzero or
the episode flag is already open (over every reachable loop state the flag
is in fact already reset, so the capture condition coincides with the
frame's own error scan); and for ten frames with errors only in frames 3-5,
frames 3, 4, 5 land in exactly one log file — named after frame 3's
timestamp — while frames 1-2 and 6-10 are absent from it. -/
theorem c1_error_triggered_buffering :
    (∀ (inputs : List (Datagram × String)) (d : Datagram) (ts : String),
        d.len = expectedBytes →
        (stepIngest 13 12 0 wAll (runIngest 13 12 0 wAll inputs) d ts).logs =
          (if anyMotorError d.frames = true ∨
              (runIngest 13 12 0 wAll inputs).errorTriggered = true then
            fsAppend (runIngest 13 12 0 wAll inputs).logs
              (errPath (if (runIngest 13 12 0 wAll inputs).tsFirst = "" then ts
                        else (runIngest 13 12 0 wAll inputs).tsFirst))
              (ts, recvArray d.frames)
          else (runIngest 13 12 0 wAll inputs).logs)) ∧
    (runIngest 13 12 0 wAll tenFrameInputs).logs =
      [(errPath "t03",
        [("t03", scenFrame 3 1), ("t04", scenFrame 4 1), ("t05", scenFrame 5 1)])] ∧
    ("t03", scenFrame 3 1) ∈
      ((runIngest 13 12 0 wAll tenFrameInputs).logs.headD (errPath "t03", [])).2 ∧
    (∀ e ∈ ((runIngest 13 12 0 wAll tenFrameInputs).logs.headD (errPath "t03", [])).2,
      e.2 ≠ scenFrame 1 0 ∧ e.2 ≠ scenFrame 2 0 ∧ e.2 ≠ scenFrame 6 0 ∧
      e.2 ≠ scenFrame 7 0 ∧ e.2 ≠ scenFrame 8 0 ∧ e.2 ≠ scenFrame 9 0 ∧
      e.2 ≠ scenFrame 10 0) := by
  refine ⟨?_, by decide, by decide, by decide⟩
  intro inputs d ts hlen
  unfold runIngest
  obtain ⟨het, hbuf⟩ := runFrom0_inv inputs (initState 13 12) rfl rfl
  by_cases he : anyMotorError d.frames = true
  · rw [step0_accepted_err _ d ts hlen he hbuf, if_pos (Or.inl he)]
  · have he' : anyMotorError d.frames = false := by simpa using he
    rw [step0_accepted_noerr wAll _ d ts hlen he', if_neg]
    rintro (h | h)
    · exact he h
    · rw [het] at h
      exact Bool.false_ne_true h

/-- Claim C1 witness: the capture condition applied to a concrete error
frame arriving at the freshly started loop. -/
theorem c1_error_triggered_buffering_witness :
    (stepIngest 13 12 0 wAll (runIngest 13 12 0 wAll []) (scenDatagram 1 1) "w1").logs =
      (if anyMotorError (scenDatagram 1 1).frames = true ∨
          (runIngest 13 12 0 wAll []).errorTriggered = true then
        fsAppend (runIngest 13 12 0 wAll []).logs
          (errPath (if (runIngest 13 12 0 wAll []).tsFirst = "" then "w1"
                    else (runIngest 13 12 0 wAll []).tsFirst))
          ("w1", recvArray (scenDatagram 1 1).frames)
      else (runIngest 13 12 0 wAll []).logs) :=
  c1_error_triggered_buffering.1 [] (scenDatagram 1 1) "w1" rfl

end C1

section C2

/-- Claim C2 counterexample: an error frame at "u1", an error-free frame,
then a second error frame at "u3".  The flush after the first episode had
an error-free frame follow it, so per the claim the second episode should
open a fresh path named "u3" — but both episodes' frames sit in the single
"u1"-named file and no "u3"-named file exists, because
`timestamp_str_first` is never cleared. -/
theorem c2_counterexample :
    (runIngest 13 12 0 wAll twoEpisodeInputs).logs =
      [(errPath "u1", [("u1", scenFrame 1 1), ("u3", scenFrame 3 1)])] ∧
    (∀ f ∈ (runIngest 13 12 0 wAll twoEpisodeInputs).logs, f.1 ≠ errPath "u3") ∧
    (runIngest 13 12 0 wAll twoEpisodeInputs).errorTriggered = false := by
  decide

/-- Claim C2 (amended): a run owns at most one physical error-log path, and
that path is named by the timestamp of the first triggering frame of the
WHOLE RUN: `timestamp_str_first` is set at the first flush and never reset,
so after an episode ends the next buffered run appends to the same path
instead of a fresh one (the `error_triggered_` flag does reset, the path
does not). -/
theorem c2_single_path_per_run (inputs : List (Datagram × String))
    (hts : ∀ x ∈ inputs, x.2 ≠ "") :
    ((runIngest 13 12 0 wAll inputs).logs.map Prod.fst).length ≤ 1 ∧
    (∀ x0 rest, inputs.filter triggersFrame = x0 :: rest →
      (runIngest 13 12 0 wAll inputs).tsFirst = x0.2 ∧
      (runIngest 13 12 0 wAll inputs).logs.map Prod.fst = [errPath x0.2]) := by
  unfold runIngest
  have h := runFrom0_from_start inputs (initState 13 12) rfl rfl rfl hts
  constructor
  · cases hf : inputs.filter triggersFrame with
    | nil =>
      rw [(h.1 hf).2]
      simp
    | cons x0 rest =>
      rw [(h.2 x0 rest hf).2]
      simp
  · exact h.2

/-- Claim C2 witness: the single-path property applied to the concrete
two-episode run — even the second episode's flush goes to the "u1" path. -/
theorem c2_single_path_per_run_witness :
    ((runIngest 13 12 0 wAll twoEpisodeInputs).logs.map Prod.fst).length ≤ 1 ∧
    (runIngest 13 12 0 wAll twoEpisodeInputs).tsFirst = "u1" ∧
    (runIngest 13 12 0 wAll twoEpisodeInputs).logs.map Prod.fst = [errPath "u1"] :=
  ⟨(c2_single_path_per_run twoEpisodeInputs (by decide)).1,
   (c2_single_path_per_run twoEpisodeInputs (by decide)).2
     (scenDatagram 1 1, "u1") [(scenDatagram 3 1, "u3")] (by decide)⟩

end C2

section C3

/-- Claim C3: under the default construction (group_count 13, var_count 12)
the later revision's decoder yields 6-value rows, so for every accepted
datagram `setData` rejects the grid as an invalid size and the receive step
never mutates the stored grid, the plotted series, the error cache or the
emissions, in any log mode. -/
theorem c3_udp_never_updates_grid (mode : ℕ) (w : String → Bool)
    (st : IngestState) (d : Datagram) (ts : String)
    (hlen : d.len = expectedBytes) :
    (∀ row ∈ decodeGrid 13 12 d.frames, row.length = 6) ∧
    (stepIngest 13 12 mode w st d ts).dataArray = st.dataArray ∧
    (stepIngest 13 12 mode w st d ts).points = st.points ∧
    (stepIngest 13 12 mode w st d ts).emissions = st.emissions ∧
    (stepIngest 13 12 mode w st d ts).lastErrors = st.lastErrors ∧
    (stepIngest 13 12 mode w st d ts).invalidReports = st.invalidReports + 1 := by
  have hreject := setData_rejects_decoded 12 d.frames st (by norm_num)
  refine ⟨?_, ?_⟩
  · intro row hrow
    simpa using decodeGrid_row_length 13 12 d.frames row hrow
  · by_cases hm : mode = 1
    · subst hm
      simp [stepIngest, hlen, hreject]
    · by_cases he : anyMotorError d.frames = true
      · simp [stepIngest, hlen, hreject, hm, he]
      · simp [stepIngest, hlen, hreject, hm, he]

/-- Claim C3 witness: the rejection at a concrete accepted datagram from the
initial state. -/
theorem c3_udp_never_updates_grid_witness :
    (∀ row ∈ decodeGrid 13 12 (scenDatagram 5 2).frames, row.length = 6) ∧
    (stepIngest 13 12 0 wAll (initState 13 12) (scenDatagram 5 2) "s1").dataArray =
      (initState 13 12).dataArray ∧
    (stepIngest 13 12 0 wAll (initState 13 12) (scenDatagram 5 2) "s1").points =
      (initState 13 12).points ∧
    (stepIngest 13 12 0 wAll (initState 13 12) (scenDatagram 5 2) "s1").emissions =
      (initState 13 12).emissions ∧
    (stepIngest 13 12 0 wAll (initState 13 12) (scenDatagram 5 2) "s1").lastErrors =
      (initState 13 12).lastErrors ∧
    (stepIngest 13 12 0 wAll (initState 13 12) (scenDatagram 5 2) "s1").invalidReports =
      (initState 13 12).invalidReports + 1 :=
  c3_udp_never_updates_grid 0 wAll (initState 13 12) (scenDatagram 5 2) "s1" rfl

end C3

section C9

/-- Claim C9: when the log path cannot be opened, `printMotorDataToFile`
reports the failure and drops the write (one failure report per call, no
retry, files untouched); the flush step nonetheless clears the pending
buffer — one cleared entry and one failure report per pending frame — so a
failed flush loses that batch. -/
theorem c9_log_open_failure :
    (∀ (w : String → Bool) (logs : LogFS) (motors : List InteractiveMotorData)
       (size : ℕ) (fname ts : String), w fname = false →
        printMotorDataToFile w logs motors size fname ts = (logs, true)) ∧
    (∀ (gc vc : ℕ) (st : IngestState) (d : Datagram) (ts : String),
       d.len = expectedBytes →
        (stepIngest gc vc 1 (fun _ => false) st d ts).buffer = [] ∧
        (stepIngest gc vc 1 (fun _ => false) st d ts).logs = st.logs ∧
        (stepIngest gc vc 1 (fun _ => false) st d ts).logOpenErrors =
          st.logOpenErrors + (st.buffer.length + 1)) := by
  constructor
  · intro w logs motors size fname ts hw
    simp [printMotorDataToFile, hw]
  · intro gc vc st d ts hlen
    obtain ⟨hbuf, hlogs, htf, het, hwarn, hloe⟩ :=
      setData_fields gc vc (decodeGrid gc vc d.frames) st
    simp [stepIngest, hlen, foldl_incr, hbuf, hlogs, hloe, printMotorDataToFile]
    omega

/-- Claim C9 witness: a concrete dropped write and a concrete lossy flush. -/
theorem c9_log_open_failure_witness :
    printMotorDataToFile (fun _ => false) [] (scenFrame 1 1) 13 (errPath "x1") "x1" =
      ([], true) ∧
    (stepIngest 13 12 1 (fun _ => false) (initState 13 12) (scenDatagram 1 0) "x2").buffer = [] ∧
    (stepIngest 13 12 1 (fun _ => false) (initState 13 12) (scenDatagram 1 0) "x2").logs =
      (initState 13 12).logs ∧
    (stepIngest 13 12 1 (fun _ => false) (initState 13 12) (scenDatagram 1 0) "x2").logOpenErrors =
      (initState 13 12).logOpenErrors + ((initState 13 12).buffer.length + 1) :=
  ⟨c9_log_open_failure.1 (fun _ => false) [] (scenFrame 1 1) 13 (errPath "x1") "x1" rfl,
   c9_log_open_failure.2 13 12 (initState 13 12) (scenDatagram 1 0) "x2" rfl⟩

end C9

section C10

/-- Claim C10: `errorToText` is a total pure lookup returning the catalog
text for the mapped codes 0, 1, 2, 3, 4, 6, 7 and the "未知错误" (unknown
error) sentinel for every other integer code. -/
theorem c10_errorToText_total_lookup :
    ∀ e : ℤ, errorToText e =
      if e = 0 then "无错误"
      else if e = 1 then "电机过热"
      else if e = 2 then "电机过流"
      else if e = 3 then "电机电压过低"
      else if e = 4 then "电机编码器错误"
      else if e = 6 then "电机刹车电压过高"
      else if e = 7 then "DRV驱动错误"
      else "未知错误" := by
  intro e
  by_cases h0 : e = 0
  · subst h0; decide
  by_cases h1 : e = 1
  · subst h1; decide
  by_cases h2 : e = 2
  · subst h2; decide
  by_cases h3 : e = 3
  · subst h3; decide
  by_cases h4 : e = 4
  · subst h4; decide
  by_cases h6 : e = 6
  · subst h6; decide
  by_cases h7 : e = 7
  · subst h7; decide
  rw [if_neg h0, if_neg h1, if_neg h2, if_neg h3, if_neg h4, if_neg h6, if_neg h7]
  have b0 : (e == 0) = false := by simp [h0]
  have b1 : (e == 1) = false := by simp [h1]
  have b2 : (e == 2) = false := by simp [h2]
  have b3 : (e == 3) = false := by simp [h3]
  have b4 : (e == 4) = false := by simp [h4]
  have b6 : (e == 6) = false := by simp [h6]
  have b7 : (e == 7) = false := by simp [h7]
  simp [errorToText, error_text_map, List.lookup, b0, b1, b2, b3, b4, b6, b7]

end C10

section C4

/-- Claim C4 counterexample: under the default configuration
(var_count = 12) the decoded rows do NOT have var_count entries — they have
6, because the later revision's `extract_fields` yields 6 values and the
code truncates but never pads. -/
theorem c4_counterexample :
    ¬ (∀ row ∈ decodeGrid 13 12 (scenFrame 0 0), row.length = 12) := by
  decide

/-- Claim C4 (amended): decoding an accepted datagram produces exactly
`gc` per-motor vectors; row `i` is the extract-order field list
(pos, vel, torque, error, temperature, mos temperature) of motor `i`
truncated to its first `min vc 6` entries — truncation only, no padding. -/
theorem c4_truncation_only (gc vc : ℕ) (frames : List InteractiveMotorData) :
    (decodeGrid gc vc frames).length = gc ∧
    ∀ i, i < gc →
      (decodeGrid gc vc frames).getD i [] =
        [(frames.getD i default).pos_, (frames.getD i default).vel_,
         (frames.getD i default).tau_, (frames.getD i default).error_,
         (frames.getD i default).temperature_,
         (frames.getD i default).mos_temperature_].take (min vc 6) := by
  constructor
  · exact decodeGrid_length gc vc frames
  · intro i hi
    unfold decodeGrid
    rw [List.getD_eq_getElem?_getD, List.getElem?_map, List.getElem?_range hi]
    simp [extract_fields]

/-- Claim C4 witness: the amended statement at a concrete input. -/
theorem c4_truncation_only_witness :
    (decodeGrid 13 12 (scenFrame 9 4)).getD 0 [] =
      [(((scenFrame 9 4)).getD 0 default).pos_, (((scenFrame 9 4)).getD 0 default).vel_,
       (((scenFrame 9 4)).getD 0 default).tau_, (((scenFrame 9 4)).getD 0 default).error_,
       (((scenFrame 9 4)).getD 0 default).temperature_,
       (((scenFrame 9 4)).getD 0 default).mos_temperature_].take (min 12 6) :=
  (c4_truncation_only 13 12 (scenFrame 9 4)).2 0 (by norm_num)

end C4

section C5

/-- Claim C5 counterexample: along the decoded error-code sequence
0, 0, 2, 2, 0 of motor 1 the change-gated label loop fires THREE
notifications, not two: the cache is seeded with the −1 sentinel, so the
very first observed 0 already differs and fires, then 0→2 and 2→0 fire. -/
theorem c5_counterexample :
    ((runUpdates 13 12 fiveTickGrids (initState 13 12)).emissions.filter
      (fun em => em.idx == 0)).length ≠ 2 ∧
    ((runUpdates 13 12 fiveTickGrids (initState 13 12)).emissions.filter
      (fun em => em.idx == 0)).length = 3 := by
  refine ⟨?_, fiveTick_count⟩
  rw [fiveTick_count]
  norm_num

/-- Claim C5 (amended): on every sampling update each motor's decoded error
value is compared with its cached value and a (index, code, text, color)
notification fires if and only if they differ, the cache then holding the
decoded value; consequently the sequence 0, 0, 2, 2, 0 fires exactly three
notifications (−1→0 at the first observation, then 0→2 and 2→0). -/
theorem c5_change_gated_emission :
    (∀ (gc : ℕ) (grid : List (List ℚ)) (last : List ℤ) (i : ℕ) (dflt : ℤ),
      i < gc →
      ((updateErrors gc grid last).2.filter (fun em => em.idx == i) =
        (if last.getD i (-1) ≠ errVal (grid.getD i []) then
          [⟨i, errVal (grid.getD i []), errorToText (errVal (grid.getD i [])),
            if errVal (grid.getD i []) = 0 then "black" else "red"⟩]
        else [])) ∧
      (updateErrors gc grid last).1.getD i dflt = errVal (grid.getD i [])) ∧
    ((runUpdates 13 12 fiveTickGrids (initState 13 12)).emissions.filter
      (fun em => em.idx == 0)).length = 3 :=
  ⟨fun gc grid last i dflt hi =>
    ⟨updateErrors_filter gc grid last i hi,
     updateErrors_fst_getD gc grid last i dflt hi⟩,
   fiveTick_count⟩

/-- Claim C5 witness: after one update on a grid whose motor-1 error column
reads 2 (cache still at the −1 sentinel), the cache holds 2. -/
theorem c5_change_gated_emission_witness :
    (updateErrors 13 (scenGrid 2) (List.replicate 13 (-1))).1.getD 0 0 = 2 := by
  have h := (c5_change_gated_emission.1 13 (scenGrid 2)
    (List.replicate 13 (-1)) 0 0 (by norm_num)).2
  rw [h]
  show errVal (errRow 2) = 2
  exact errVal_errRow_two

end C5

section C6

/-- Claim C6 counterexample: `raggedGrid` is not of shape 13 × 12 (its
second row has 11 entries), yet `setData` accepts it and replaces the
stored grid — the shape check only inspects the row count and the first
row. -/
theorem c6_counterexample :
    ¬ (raggedGrid.length = 13 ∧ ∀ row ∈ raggedGrid, row.length = 12) ∧
    (setData 13 12 raggedGrid (initState 13 12)).dataArray = raggedGrid := by
  constructor
  · decide
  · rfl

/-- Claim C6 (amended): `setData` rejects exactly when the row count
differs from `gc` or the FIRST row's length differs from `vc`; a rejection
is a complete no-op apart from the diagnostic counter, and an accepted
grid replaces the stored grid wholesale. -/
theorem c6_first_row_shape_check (gc vc : ℕ) (grid : List (List ℚ)) (st : IngestState) :
    ((grid.length ≠ gc ∨ (grid.headD []).length ≠ vc) →
      setData gc vc grid st = { st with invalidReports := st.invalidReports + 1 }) ∧
    (grid.length = gc → (grid.headD []).length = vc →
      (setData gc vc grid st).dataArray = grid) := by
  constructor
  · intro h
    unfold setData
    rw [if_pos h]
  · intro h1 h2
    unfold setData
    rw [if_neg (by omega)]
    simp [updateData]

/-- Claim C6 witness: a wrong-row-count grid is rejected unchanged, and a
conforming grid is stored, at concrete inputs. -/
theorem c6_first_row_shape_check_witness :
    setData 13 12 [] (initState 13 12) =
      { initState 13 12 with invalidReports := (initState 13 12).invalidReports + 1 } ∧
    (setData 13 12 (List.replicate 13 (List.replicate 12 0)) (initState 13 12)).dataArray =
      List.replicate 13 (List.replicate 12 0) :=
  ⟨(c6_first_row_shape_check 13 12 [] (initState 13 12)).1 (by norm_num),
   (c6_first_row_shape_check 13 12 (List.replicate 13 (List.replicate 12 0))
      (initState 13 12)).2 (by simp) (by simp)⟩

end C6

section C7

/-- Claim C7: in Continuous mode every accepted frame is buffered and then
flushed, so the run's single full-log file — named by the first accepted
frame's timestamp — contains exactly the accepted frames, each once, in
receive order. -/
theorem c7_continuous_exactly_once (inputs : List (Datagram × String))
    (hts : ∀ x ∈ inputs, x.2 ≠ "") :
    (inputs.filter acceptedD = [] → (runIngest 13 12 1 wAll inputs).logs = []) ∧
    (∀ x0 rest, inputs.filter acceptedD = x0 :: rest →
      (runIngest 13 12 1 wAll inputs).logs =
        [(fullPath x0.2,
          (inputs.filter acceptedD).map (fun x => (x.2, recvArray x.1.frames)))]) := by
  unfold runIngest
  exact runFrom1_from_start inputs (initState 13 12) rfl rfl rfl hts

/-- Claim C7 witness: a concrete Continuous run — two accepted frames
around one malformed datagram end up, in order, in the single "v1"-named
full-log file. -/
theorem c7_continuous_exactly_once_witness :
    (runIngest 13 12 1 wAll continuousInputs).logs =
      [(fullPath "v1", [("v1", scenFrame 1 0), ("v3", scenFrame 2 5)])] := by
  have h := (c7_continuous_exactly_once continuousInputs (by decide)).2
    (scenDatagram 1 0, "v1") [(scenDatagram 2 5, "v3")] (by decide)
  exact h.trans (by decide)

end C7

section C8

/-- Claim C8: a datagram whose length differs from
`motor_count × sizeof(MotorFrame)` is discarded with only a warning — no
grid mutation, no buffering, no logging — and the loop goes on to process
the rest of the input stream from that same state. -/
theorem c8_malformed_dropped (gc vc mode : ℕ) (w : String → Bool)
    (st : IngestState) (d : Datagram) (ts : String)
    (rest : List (Datagram × String)) (h : d.len ≠ expectedBytes) :
    stepIngest gc vc mode w st d ts = { st with warnings := st.warnings + 1 } ∧
    runFrom gc vc mode w st ((d, ts) :: rest) =
      runFrom gc vc mode w { st with warnings := st.warnings + 1 } rest := by
  refine ⟨step_malformed gc vc mode w st d ts h, ?_⟩
  show runFrom gc vc mode w (stepIngest gc vc mode w st d ts) rest = _
  rw [step_malformed gc vc mode w st d ts h]

/-- Claim C8 witness: a datagram one byte short (expected − 1) is dropped
with a warning and the next valid datagram is still processed. -/
theorem c8_malformed_dropped_witness :
    stepIngest 13 12 0 wAll (initState 13 12) ⟨expectedBytes - 1, scenFrame 1 1⟩ "b1" =
      { initState 13 12 with warnings := (initState 13 12).warnings + 1 } ∧
    runFrom 13 12 0 wAll (initState 13 12)
        [(⟨expectedBytes - 1, scenFrame 1 1⟩, "b1"), (scenDatagram 2 0, "b2")] =
      runFrom 13 12 0 wAll
        { initState 13 12 with warnings := (initState 13 12).warnings + 1 }
        [(scenDatagram 2 0, "b2")] :=
  c8_malformed_dropped 13 12 0 wAll (initState 13 12) ⟨expectedBytes - 1, scenFrame 1 1⟩
    "b1" [(scenDatagram 2 0, "b2")] (by decide)

end C8

end MotorMonitor
